import Mathlib

/-!
# Verification of the PyForged namespace registry

Shallow embedding of the two registries of the repository:

* `PyForged.NamespaceManager` — the flat, string-keyed registry of
  `src/pyforged/namespaces.py` (nested mappings, metadata, version history,
  TTL expiration, role permissions, aliases).
* `Forged.Namespace` — the tree registry of
  `src/forged/namespacing/core/namespace.py` (NamespaceNode tree, Symbols,
  conflict handling, lazy loading).

Python dictionaries are modelled as insertion-ordered association lists;
`time.time()` is modelled by an explicit `now : Nat` argument threaded into
each operation that reads the clock (the several clock reads inside one
operation are identified).  Python exceptions are modelled by `Except PyErr`;
an operation that raises before mutating returns `.error` and the caller
keeps the unchanged state, which matches the source because every raising
path of the embedded operations raises before its first mutation.
-/

/-- Python values as stored by the registries.  `dict` is a nested mapping
(insertion-ordered, unique keys as produced by dict assignment); `val` is an
opaque non-mapping value (e.g. an int); `none` is Python `None`.  String
values' substring-membership semantics under `in` are not modelled: every
non-`dict` value behaves as a non-container. -/
inductive PyObj where
  | none : PyObj
  | val : Nat → PyObj
  | dict : List (String × PyObj) → PyObj

/-- View a Python object as a mapping, if it is one. -/
def PyObj.asDict : PyObj → Option (List (String × PyObj))
  | .dict d => some d
  | _ => Option.none

/-- Python exceptions raised by the embedded code.  `permissionError` carries
the role, the (alias-resolved) namespace and the missing permission token of
the f-string message; `keyError` carries the path of the message. -/
inductive PyErr where
  | valueError : String → PyErr
  | permissionError : String → String → String → PyErr
  | typeError : PyErr
  | attributeError : PyErr
  | keyError : String → PyErr
  | conflictDetected : String → PyErr

/-- Lookup in an insertion-ordered association list (Python `d.get(k)` /
`d[k]`). -/
def alookup (k : String) : List (String × α) → Option α
  | [] => Option.none
  | (k', v) :: rest => if k' = k then some v else alookup k rest

/-- Assignment `d[k] = v` on an insertion-ordered association list: updates
the existing binding in place, else appends a new one (Python dict order). -/
def aset (k : String) (v : α) : List (String × α) → List (String × α)
  | [] => [(k, v)]
  | (k', v') :: rest => if k' = k then (k, v) :: rest else (k', v') :: aset k v rest

/-- `d.pop(k, None)`: removes the binding of `k`, if any. -/
def apop (k : String) : List (String × α) → List (String × α)
  | [] => []
  | (k', v') :: rest => if k' = k then rest else (k', v') :: apop k rest

/-- `namespace.split(".")` — Python `str.split` with a one-character
separator, on the character list of the string.  Always returns at least one
(possibly empty) segment. -/
def splitDotAux : List Char → List String
  | [] => [""]
  | c :: cs =>
    if c = '.' then "" :: splitDotAux cs
    else
      match splitDotAux cs with
      | h :: t => String.mk (c :: h.data) :: t
      | [] => [String.mk [c]]

def splitDot (s : String) : List String := splitDotAux s.data

namespace PyForged

/-- Metadata stored by `NamespaceManager.set`. -/
structure Metadata where
  created_at : Nat
  updated_at : Nat
  description : String

/-- The internal tables of the `NamespaceManager` singleton
(`_namespaces`, `_metadata`, `_aliases`, `_versions`, `_permissions`,
`_expirations`).  `versions` entries default to `[]` on absent keys, the
read behaviour of the `defaultdict(list)` of the source. -/
structure RegState where
  namespaces : List (String × PyObj)
  metadata : List (String × Metadata)
  aliases : List (String × String)
  versions : List (String × List (Nat × PyObj))
  permissions : List (String × List (String × List String))
  expirations : List (String × Nat)

namespace NamespaceManager

/-- `_validate_namespace`: the regex `^[a-zA-Z0-9_]+(\.[a-zA-Z0-9_]+)*$`,
i.e. dot-separated nonempty runs of ASCII word characters.  (The Python `$`
anchor would additionally accept one trailing newline; that regex arcanum is
not modelled.) -/
def validate_namespace (ns : String) : Bool :=
  (splitDot ns).all fun seg =>
    (!seg.isEmpty) && seg.data.all fun c => c.isAlphanum || c == '_'

/-- `_resolve_alias`: one lookup in the alias table, identity when absent. -/
def resolve_alias (s : RegState) (ns : String) : String :=
  (alookup ns s.aliases).getD ns

/-- `set_alias`. -/
def set_alias (s : RegState) (alias0 ns : String) : Except PyErr RegState :=
  if !validate_namespace alias0 || !validate_namespace ns then
    .error (.valueError "Invalid alias or namespace format.")
  else
    .ok { s with aliases := aset alias0 ns s.aliases }

/-- `get_alias`. -/
def get_alias (s : RegState) (alias0 : String) : Option String :=
  alookup alias0 s.aliases

/-- `delete_alias`. -/
def delete_alias (s : RegState) (alias0 : String) : RegState :=
  { s with aliases := apop alias0 s.aliases }

/-- `set_permission`: `setdefault(ns, {}).setdefault(role, set()).add(perm)`.
The Python `set` of tokens is modelled as a duplicate-free list; note that
`set_permission` validates the namespace but does not resolve aliases. -/
def set_permission (s : RegState) (ns role perm : String) : Except PyErr RegState :=
  if !validate_namespace ns then .error (.valueError ns)
  else
    let roles := (alookup ns s.permissions).getD []
    let ps := (alookup role roles).getD []
    let ps' := if ps.contains perm then ps else ps ++ [perm]
    .ok { s with permissions := aset ns (aset role ps' roles) s.permissions }

/-- `get_permissions`. -/
def get_permissions (s : RegState) (ns : String) : List (String × List String) :=
  let ns := resolve_alias s ns
  (alookup ns s.permissions).getD []

/-- `check_permission`: membership of the token in the role's set, with the
empty set as double default — a role or namespace with no recorded entry
yields `false`. -/
def check_permission (s : RegState) (ns role perm : String) : Bool :=
  let ns := resolve_alias s ns
  (((alookup ns s.permissions).getD []) |> alookup role).getD [] |>.contains perm

/-- The walk of `set`: `ref = ref.setdefault(key, {})` over `keys[:-1]`,
then `ref[keys[-1]] = value`.  Reaching a non-mapping raises: TypeError for
the final item assignment, AttributeError for a `setdefault` call on it. -/
def walkSet (d : List (String × PyObj)) (mids : List String) (last0 : String)
    (v : PyObj) : Except PyErr (List (String × PyObj)) :=
  match mids with
  | [] => .ok (aset last0 v d)
  | k :: rest =>
    match alookup k d with
    | Option.none =>
      match walkSet [] rest last0 v with
      | .error e => .error e
      | .ok d2 => .ok (aset k (.dict d2) d)
    | some x =>
      match x.asDict with
      | some d2 =>
        match walkSet d2 rest last0 v with
        | .error e => .error e
        | .ok d2' => .ok (aset k (.dict d2') d)
      | Option.none => if rest.isEmpty then .error .typeError else .error .attributeError

/-- `NamespaceManager.set`: resolve alias, validate format, check `"write"`
permission, then store the value, rewrite the metadata record, append to the
version history, and record an absolute expiration when a ttl is given. -/
def set (s : RegState) (now : Nat) (ns0 : String) (value : PyObj)
    (description : String) (role : String) (ttl : Option Nat) :
    Except PyErr RegState :=
  let ns := resolve_alias s ns0
  if !validate_namespace ns then .error (.valueError ns)
  else if !check_permission s ns role "write" then
    .error (.permissionError role ns "write")
  else
    let keys := splitDot ns
    match walkSet s.namespaces keys.dropLast (keys.getLastD "") value with
    | .error e => .error e
    | .ok nss =>
      .ok { s with
        namespaces := nss
        metadata := aset ns ⟨now, now, description⟩ s.metadata
        versions := aset ns ((alookup ns s.versions).getD [] ++ [(now, value)]) s.versions
        expirations :=
          match ttl with
          | some t => aset ns (now + t) s.expirations
          | Option.none => s.expirations }

/-- The walk of `get`: `if key not in ref: return default; ref = ref[key]`,
returning the final `ref`.  The membership test on a non-mapping raises. -/
def walkGet (ref : PyObj) (keys : List String) (dflt : PyObj) : Except PyErr PyObj :=
  match keys with
  | [] => .ok ref
  | k :: rest =>
    match ref.asDict with
    | Option.none => .error .typeError
    | some d =>
      match alookup k d with
      | Option.none => .ok dflt
      | some v => walkGet v rest dflt

/-- The walk of `delete` over `keys[:-1]` followed by `ref.pop(keys[-1], None)`.
Returns `none` for the early `return` on a missing intermediate (in which
case `delete` removes nothing — not even the metadata). -/
def delPath (d : List (String × PyObj)) (mids : List String) (last0 : String) :
    Except PyErr (Option (List (String × PyObj))) :=
  match mids with
  | [] => .ok (some (apop last0 d))
  | k :: rest =>
    match alookup k d with
    | Option.none => .ok Option.none
    | some x =>
      match x.asDict with
      | some d2 =>
        match delPath d2 rest last0 with
        | .error e => .error e
        | .ok Option.none => .ok Option.none
        | .ok (some d2') => .ok (some (aset k (.dict d2') d))
      | Option.none => if rest.isEmpty then .error .attributeError else .error .typeError

/-- `NamespaceManager.delete`: resolve alias, check `"write"`, then pop the
leaf and the path's metadata, versions and expiration; a missing intermediate
returns silently without touching anything. -/
def delete (s : RegState) (ns0 : String) (role : String) : Except PyErr RegState :=
  let ns := resolve_alias s ns0
  if !check_permission s ns role "write" then
    .error (.permissionError role ns "write")
  else
    let keys := splitDot ns
    match delPath s.namespaces keys.dropLast (keys.getLastD "") with
    | .error e => .error e
    | .ok Option.none => .ok s
    | .ok (some nss) =>
      .ok { s with
        namespaces := nss
        metadata := apop ns s.metadata
        versions := apop ns s.versions
        expirations := apop ns s.expirations }

/-- `NamespaceManager.get`: resolve alias, check `"read"`; a present, passed
expiration triggers `self.delete(ns, role)` (whose write check may raise) and
returns the default; otherwise the nested walk. -/
def get (s : RegState) (now : Nat) (ns0 : String) (dflt : PyObj) (role : String) :
    Except PyErr (PyObj × RegState) :=
  let ns := resolve_alias s ns0
  if !check_permission s ns role "read" then
    .error (.permissionError role ns "read")
  else
    let walkRes : Except PyErr (PyObj × RegState) :=
      match walkGet (.dict s.namespaces) (splitDot ns) dflt with
      | .error e => .error e
      | .ok v => .ok (v, s)
    match alookup ns s.expirations with
    | some e =>
      if now > e then
        match delete s ns role with
        | .error err => .error err
        | .ok s' => .ok (dflt, s')
      else walkRes
    | Option.none => walkRes

/-- `get_metadata`. -/
def get_metadata (s : RegState) (ns0 : String) : Option Metadata :=
  let ns := resolve_alias s ns0
  alookup ns s.metadata

/-- `get_versions`: the full timestamped history (the Python wraps each pair
in a `{"timestamp": ts, "value": val}` dict; the pair carries the same data).
No permission check and no possibility of failure. -/
def get_versions (s : RegState) (ns0 : String) : List (Nat × PyObj) :=
  let ns := resolve_alias s ns0
  (alookup ns s.versions).getD []

/-- `rollback`: first entry of the reversed history with timestamp `≤ ts` is
re-applied through `set` with the default role `"admin"`, the default empty
description and no ttl; nothing happens when no entry qualifies. -/
def rollback (s : RegState) (now : Nat) (ns0 : String) (timestamp : Nat) :
    Except PyErr RegState :=
  let ns := resolve_alias s ns0
  match ((alookup ns s.versions).getD []).reverse.find? (fun p => p.1 ≤ timestamp) with
  | Option.none => .ok s
  | some p => set s now ns p.2 "" "admin" Option.none

/-- The walk of `list_keys`; `list(ref.keys())` on a non-mapping raises
AttributeError, the membership test on a non-mapping raises TypeError. -/
def listWalk (ref : PyObj) (keys : List String) : Except PyErr (List String) :=
  match keys with
  | [] =>
    match ref.asDict with
    | some d => .ok (d.map (·.1))
    | Option.none => .error .attributeError
  | k :: rest =>
    match ref.asDict with
    | Option.none => .error .typeError
    | some d =>
      match alookup k d with
      | Option.none => .ok []
      | some v => listWalk v rest

/-- `list_keys`: immediate child keys under the namespace, top-level keys for
the empty string; a missing segment yields `[]`.  No permission check. -/
def list_keys (s : RegState) (ns0 : String) : Except PyErr (List String) :=
  let ns := resolve_alias s ns0
  if ns = "" then .ok (s.namespaces.map (·.1))
  else listWalk (.dict s.namespaces) (splitDot ns)

/-- The recursive flattening of `search.match_keys`: nested mappings are
recursed into, the first non-mapping value becomes a leaf at its dotted
path; traversal order is insertion order. -/
def matchKeys : List (String × PyObj) → String → List (String × PyObj)
  | [], _ => []
  | (k, v) :: rest, path =>
    let newPath := if path = "" then k else path ++ "." ++ k
    (match v with
     | .dict d2 => matchKeys d2 newPath
     | other => [(newPath, other)]) ++ matchKeys rest path

/-- `fnmatch`-style shell glob: `*` matches any run of characters (dots
included), `?` any single character, other characters literally.  Character
classes `[...]` are not modelled (no claim uses them). -/
def globMatch (p s : List Char) : Bool :=
  match p, s with
  | [], [] => true
  | [], _ :: _ => false
  | '*' :: ps, [] => globMatch ps []
  | '*' :: ps, c :: cs => globMatch ps (c :: cs) || globMatch ('*' :: ps) cs
  | '?' :: _, [] => false
  | '?' :: ps, _ :: cs => globMatch ps cs
  | c0 :: ps, c :: cs => c0 = c && globMatch ps cs
  | _ :: _, [] => false
termination_by p.length + s.length

/-- `_match_pattern` via `fnmatch.fnmatch`. -/
def match_pattern (key pattern : String) : Bool :=
  globMatch pattern.data key.data

/-- `search`: flatten the whole nested mapping, then filter by the glob.
No alias resolution and no permission check. -/
def search (s : RegState) (pattern : String) : List (String × PyObj) :=
  (matchKeys s.namespaces "").filter fun p => match_pattern p.1 pattern

end NamespaceManager

end PyForged

namespace Forged

/-- Modelled from the spec: `forged/namespacing/core/symbol.py` is not in
the source tree.  Per §3, a Symbol is `{value: opaque, name: optional
string, tags: mapping string→any}`, replaced wholesale on re-registration.
A Symbol instance is truthy, `None` falsy, so the source's `if node.symbol:`
tests are `Option.isSome` here. -/
structure Symbol where
  value : PyObj
  name : Option String
  tags : List (String × PyObj)

/-- Modelled from the spec: `forged/namespacing/core/node.py` is not in the
source tree.  Per §3, `{segment, symbol: optional Symbol, children: mapping
segment→NamespaceNode}`, a strict tree with unique child segments. -/
inductive NamespaceNode where
  | mk : String → Option Symbol → List (String × NamespaceNode) → NamespaceNode

def NamespaceNode.segment : NamespaceNode → String
  | .mk sg _ _ => sg

def NamespaceNode.symbol : NamespaceNode → Option Symbol
  | .mk _ sy _ => sy

def NamespaceNode.children : NamespaceNode → List (String × NamespaceNode)
  | .mk _ _ ch => ch

/-- Modelled from the spec (§4.1): `get_child` is a pure lookup. -/
def NamespaceNode.get_child (n : NamespaceNode) (k : String) : Option NamespaceNode :=
  alookup k n.children

/-- In-place replacement of the symbol of a node (Python attribute
assignment `node.symbol = ...`). -/
def NamespaceNode.withSymbol : NamespaceNode → Option Symbol → NamespaceNode
  | .mk sg _ ch, sy => .mk sg sy ch

/-- Functional counterpart of mutating one child binding of a node. -/
def NamespaceNode.set_child (n : NamespaceNode) (k : String) (c : NamespaceNode) :
    NamespaceNode :=
  .mk n.segment n.symbol (aset k c n.children)

/-- Modelled from the spec: `forged/namespacing/core/resolver.py` is not in
the source tree.  Per §4.2 and §9, the Resolver holds a pluggable conflict
policy (modelled by `strict`: raise-and-abort vs. record-and-allow, the
record kept in `conflicts`), and a lazy-loader table keyed by path, each
producer modelled by the value it yields. -/
structure Resolver where
  strict : Bool
  conflicts : List String
  lazyTable : List (String × PyObj)

/-- Modelled from the spec (§4.2): `has_lazy(path)` reports eligibility. -/
def Resolver.has_lazy (r : Resolver) (path : String) : Bool :=
  (alookup path r.lazyTable).isSome

/-- Modelled from the spec (§4.2): `load_lazy(path)` invokes the producer,
yielding a Symbol to cache at the node. -/
def Resolver.load_lazy (r : Resolver) (path : String) : Option Symbol :=
  (alookup path r.lazyTable).map fun v => ⟨v, Option.none, []⟩

/-- Modelled from the spec (§4.2, §7): `handle_conflict` fires pre-mutation;
a strict policy raises `ConflictDetected` and aborts, a lax one records the
conflicted path and allows the overwrite.  Either way the conflict is not
silently lost. -/
def Resolver.handle_conflict (r : Resolver) (path : String) : Except PyErr Resolver :=
  if r.strict then .error (.conflictDetected path)
  else .ok { r with conflicts := r.conflicts ++ [path] }

/-- Modelled from the spec: `forged/namespacing/core/utils.py` is not in the
source tree; per §6 the addressing scheme is dotted segments, so
`split_path` is `path.split(".")`. -/
def split_path (path : String) : List String := splitDot path

/-- `register` may be handed a raw value or an already-wrapped Symbol
(`value if isinstance(value, Symbol) else Symbol(value=value)`). -/
inductive RegValue where
  | raw : PyObj → RegValue
  | sym : Symbol → RegValue

def RegValue.toSymbol : RegValue → Symbol
  | .raw v => ⟨v, Option.none, []⟩
  | .sym s => s

/-- The `Namespace` of `namespace.py` (the unused `parent` field is
dropped). -/
structure Namespace where
  name : String
  root : NamespaceNode
  resolver : Resolver

/-- The walk of `Namespace.register`: `add_child` over `parts[:-1]`
(idempotent get-or-create), then the conflict check at the terminal when an
occupied child already lives there, then the Symbol assignment. -/
def registerWalk (node : NamespaceNode) (mids : List String) (final : String)
    (value : RegValue) (r : Resolver) (path : String) :
    Except PyErr (NamespaceNode × Resolver) :=
  match mids with
  | [] =>
    match node.get_child final with
    | some child =>
      if child.symbol.isSome then
        match r.handle_conflict path with
        | .error e => .error e
        | .ok r' => .ok (node.set_child final (child.withSymbol (some value.toSymbol)), r')
      else .ok (node.set_child final (child.withSymbol (some value.toSymbol)), r)
    | Option.none =>
      .ok (node.set_child final (.mk final (some value.toSymbol) []), r)
  | k :: rest =>
    let child :=
      match node.get_child k with
      | some c => c
      | Option.none => .mk k Option.none []
    match registerWalk child rest final value r path with
    | .error e => .error e
    | .ok (child', r') => .ok (node.set_child k child', r')

/-- `Namespace.register`.  The guard on the empty path is modelled from the
spec (§4.3: "registering at an empty path is rejected"), the behaviour the
missing `split_path` helper must supply. -/
def Namespace.register (n : Namespace) (path : String) (value : RegValue) :
    Except PyErr Namespace :=
  if path = "" then .error (.valueError path)
  else
    let parts := split_path path
    match registerWalk n.root parts.dropLast (parts.getLastD "") value n.resolver path with
    | .error e => .error e
    | .ok (root', r') => .ok { n with root := root', resolver := r' }

/-- The walk of `resolve`/`unregister`: successive `get_child`, `none` as
soon as a segment is missing. -/
def findNodeWalk (n : NamespaceNode) (parts : List String) : Option NamespaceNode :=
  match parts with
  | [] => some n
  | k :: rest =>
    match n.get_child k with
    | Option.none => Option.none
    | some c => findNodeWalk c rest

/-- Functional counterpart of the in-place `current.symbol = ...` at the
node addressed by `parts` (identity when the path is missing). -/
def setSymbolAt (n : NamespaceNode) (parts : List String) (sy : Option Symbol) :
    NamespaceNode :=
  match parts with
  | [] => n.withSymbol sy
  | k :: rest =>
    match n.get_child k with
    | Option.none => n
    | some c => n.set_child k (setSymbolAt c rest sy)

/-- `Namespace.resolve`: walk all segments (`KeyError("Path not found: …")`
on any missing one, terminal included); a terminal without a Symbol triggers
a pending lazy loader, caching the produced Symbol at the node; otherwise
the Symbol's value, or `None` for a structurally present but unoccupied
path. -/
def Namespace.resolve (n : Namespace) (path : String) :
    Except PyErr (PyObj × Namespace) :=
  let parts := split_path path
  match findNodeWalk n.root parts with
  | Option.none => .error (.keyError path)
  | some node =>
    match node.symbol with
    | some sym => .ok (sym.value, n)
    | Option.none =>
      match n.resolver.load_lazy path with
      | some sym => .ok (sym.value, { n with root := setSymbolAt n.root parts (some sym) })
      | Option.none => .ok (.none, n)

mutual

/-- `Namespace.resolve_pattern` delegates to the Resolver's matcher; the
matcher itself lives in the missing `resolver.py`.  Modelled from the spec
(§4.2): full traversal collecting dotted paths of live leaves, filtered by
the shell glob. -/
def matchTree : NamespaceNode → String → List (String × PyObj)
  | .mk _ sy ch, path =>
    (match sy with
     | some sym => [(path, sym.value)]
     | Option.none => []) ++ matchChildren ch path

def matchChildren : List (String × NamespaceNode) → String → List (String × PyObj)
  | [], _ => []
  | (k, c) :: rest, path =>
    matchTree c (if path = "" then k else path ++ "." ++ k) ++ matchChildren rest path

end

/-- The walk of `unregister`: `parts[:-1]` through `get_child` with
`KeyError` on a missing intermediate, then clearing the terminal child's
Symbol when that child exists. -/
def clearWalk (node : NamespaceNode) (mids : List String) (last0 : String)
    (path : String) : Except PyErr NamespaceNode :=
  match mids with
  | [] =>
    match node.get_child last0 with
    | some target => .ok (node.set_child last0 (target.withSymbol Option.none))
    | Option.none => .ok node
  | k :: rest =>
    match node.get_child k with
    | Option.none => .error (.keyError path)
    | some c =>
      match clearWalk c rest last0 path with
      | .error e => .error e
      | .ok c' => .ok (node.set_child k c')

/-- `Namespace.unregister`. -/
def Namespace.unregister (n : Namespace) (path : String) : Except PyErr Namespace :=
  let parts := split_path path
  match clearWalk n.root parts.dropLast (parts.getLastD "") path with
  | .error e => .error e
  | .ok root' => .ok { n with root := root' }

end Forged

/-! ## Association-list lemmas -/

theorem alookup_aset_self (k : String) (v : α) (l : List (String × α)) :
    alookup k (aset k v l) = some v := by
  induction l with
  | nil => simp [aset, alookup]
  | cons hd tl ih =>
    obtain ⟨k', v'⟩ := hd
    by_cases h : k' = k
    · simp [aset, alookup, h]
    · simp [aset, alookup, h, ih]

theorem alookup_aset_ne (k k' : String) (v : α) (l : List (String × α))
    (h : k' ≠ k) : alookup k' (aset k v l) = alookup k' l := by
  induction l with
  | nil => simp [aset, alookup, Ne.symm h]
  | cons hd tl ih =>
    obtain ⟨k0, v0⟩ := hd
    by_cases h0 : k0 = k
    · subst h0
      simp [aset, alookup, Ne.symm h]
    · simp [aset, alookup, h0, ih]

theorem alookup_eq_none_of_not_mem (k : String) (l : List (String × α))
    (h : k ∉ l.map Prod.fst) : alookup k l = Option.none := by
  induction l with
  | nil => simp [alookup]
  | cons hd tl ih =>
    obtain ⟨k0, v0⟩ := hd
    simp only [List.map_cons, List.mem_cons] at h
    push_neg at h
    have : k0 ≠ k := fun hh => h.1 (by simp [hh])
    simp [alookup, this, ih h.2]

theorem alookup_apop_self (k : String) (l : List (String × α))
    (h : (l.map Prod.fst).Nodup) : alookup k (apop k l) = Option.none := by
  induction l with
  | nil => simp [apop, alookup]
  | cons hd tl ih =>
    obtain ⟨k0, v0⟩ := hd
    simp only [List.map_cons, List.nodup_cons] at h
    by_cases h0 : k0 = k
    · subst h0
      simp [apop, alookup_eq_none_of_not_mem _ _ h.1]
    · simp [apop, alookup, h0, ih h.2]

/-! ## Walk lemmas for the flat registry -/

namespace PyForged.NamespaceManager

/-- A successful `set` walk leaves the path writable: a second `set` of the
same path cannot fail in the nested-mapping walk. -/
theorem walkSet_ok_again (mids : List String) (d d' : List (String × PyObj))
    (last0 : String) (v v' : PyObj)
    (h : walkSet d mids last0 v = .ok d') :
    ∃ d'', walkSet d' mids last0 v' = .ok d'' := by
  induction mids generalizing d d' with
  | nil => exact ⟨aset last0 v' d', by simp [walkSet]⟩
  | cons k rest ih =>
    simp only [walkSet] at h
    split at h
    · split at h
      · simp at h
      · rename_i d2 hrec
        simp only [Except.ok.injEq] at h
        subst h
        obtain ⟨d2', hd2'⟩ := ih [] d2 hrec
        exact ⟨aset k (.dict d2') (aset k (.dict d2) d), by
          simp [walkSet, alookup_aset_self, PyObj.asDict, hd2']⟩
    · split at h
      · split at h
        · simp at h
        · rename_i d2' hrec
          simp only [Except.ok.injEq] at h
          subst h
          obtain ⟨d2'', hd2''⟩ := ih _ d2' hrec
          exact ⟨aset k (.dict d2'') (aset k (.dict d2') d), by
            simp [walkSet, alookup_aset_self, PyObj.asDict, hd2'']⟩
      · split at h <;> simp at h

/-- Fail-closed reading of `check_permission`: a role with no recorded entry
for the (alias-resolved) namespace has no permissions at all. -/
theorem check_permission_no_role_entry (s : RegState) (ns role perm : String)
    (hA : resolve_alias s ns = ns)
    (h : alookup role ((alookup ns s.permissions).getD []) = Option.none) :
    check_permission s ns role perm = false := by
  simp [check_permission, hA, h, List.contains]

/-- The state a guard-passing `set` produces (used to state the `set`
characterization lemmas once). -/
def setResult (s : RegState) (now : Nat) (ns : String) (v : PyObj)
    (desc : String) (ttl : Option Nat) (nss : List (String × PyObj)) : RegState :=
  { s with
    namespaces := nss
    metadata := aset ns ⟨now, now, desc⟩ s.metadata
    versions := aset ns ((alookup ns s.versions).getD [] ++ [(now, v)]) s.versions
    expirations :=
      match ttl with
      | some t => aset ns (now + t) s.expirations
      | Option.none => s.expirations }

/-- `set` with the guards passed: the exact state it produces. -/
theorem set_eq_ok (s : RegState) (now : Nat) (ns : String) (v : PyObj)
    (desc role : String) (ttl : Option Nat) (nss : List (String × PyObj))
    (hA : resolve_alias s ns = ns)
    (hval : validate_namespace ns = true)
    (hperm : check_permission s ns role "write" = true)
    (hwalk : walkSet s.namespaces (splitDot ns).dropLast ((splitDot ns).getLastD "") v
      = .ok nss) :
    set s now ns v desc role ttl = .ok (setResult s now ns v desc ttl nss) := by
  simp only [List.getLastD_eq_getLast?] at hwalk
  simp [set, setResult, hA, hval, hperm, hwalk]

/-- `set` raises `PermissionError` when the role lacks `"write"`, before any
mutation. -/
theorem set_denied (s : RegState) (now : Nat) (ns0 : String) (v : PyObj)
    (desc role : String) (ttl : Option Nat)
    (hval : validate_namespace (resolve_alias s ns0) = true)
    (hperm : check_permission s (resolve_alias s ns0) role "write" = false) :
    set s now ns0 v desc role ttl
      = .error (.permissionError role (resolve_alias s ns0) "write") := by
  simp [set, hval, hperm]

/-- What a successful `set` must have checked and produced. -/
theorem set_ok_elim (s s' : RegState) (now : Nat) (ns0 : String) (v : PyObj)
    (desc role : String) (ttl : Option Nat)
    (h : set s now ns0 v desc role ttl = .ok s') :
    ∃ nss,
      validate_namespace (resolve_alias s ns0) = true ∧
      check_permission s (resolve_alias s ns0) role "write" = true ∧
      walkSet s.namespaces (splitDot (resolve_alias s ns0)).dropLast
        ((splitDot (resolve_alias s ns0)).getLastD "") v = .ok nss ∧
      s' = setResult s now (resolve_alias s ns0) v desc ttl nss := by
  simp only [set] at h
  split at h
  · simp at h
  · rename_i hvalb
    split at h
    · simp at h
    · rename_i hpermb
      split at h
      · simp at h
      · rename_i nss hwalk
        simp only [Except.ok.injEq] at h
        refine ⟨nss, by simpa using hvalb, by simpa using hpermb, ?_, ?_⟩
        · simpa [List.getLastD_eq_getLast?] using hwalk
        · rw [← h]
          cases ttl <;> rfl

/-- `delete` raises `PermissionError` when the role lacks `"write"`. -/
theorem delete_denied (s : RegState) (ns0 role : String)
    (hperm : check_permission s (resolve_alias s ns0) role "write" = false) :
    delete s ns0 role = .error (.permissionError role (resolve_alias s ns0) "write") := by
  simp [delete, hperm]

/-- `get` raises `PermissionError` when the role lacks `"read"`. -/
theorem get_denied (s : RegState) (now : Nat) (ns0 : String) (dflt : PyObj)
    (role : String)
    (hperm : check_permission s (resolve_alias s ns0) role "read" = false) :
    get s now ns0 dflt role = .error (.permissionError role (resolve_alias s ns0) "read") := by
  simp [get, hperm]

/-- C10: on an expired entry, `get` with a role that can read but not write
raises `PermissionError` instead of returning the default, because the lazy
reclamation is `self.delete(namespace, role)` and `delete` demands the
`"write"` token of the same role. -/
theorem get_expired_read_only_raises (s : RegState) (now e : Nat)
    (P R : String) (dflt : PyObj)
    (hA : resolve_alias s P = P)
    (hread : check_permission s P R "read" = true)
    (hnowrite : check_permission s P R "write" = false)
    (hexp : alookup P s.expirations = some e) (hpass : now > e) :
    get s now P dflt R = .error (.permissionError R P "write") := by
  have hdel : delete s P R = .error (.permissionError R P "write") := by
    have h := delete_denied s P R (by rwa [hA])
    rwa [hA] at h
  simp [get, hA, hread, hexp, hpass, hdel]

/-- Closed instance of `get_expired_read_only_raises`: role `"r"` holds only
`"read"` on `"a"`, the expiration 5 has passed at time 10. -/
theorem get_expired_read_only_raises_witness :
    get ⟨[("a", .val 1)], [], [], [], [("a", [("r", ["read"])])], [("a", 5)]⟩
      10 "a" .none "r" = .error (.permissionError "r" "a" "write") :=
  get_expired_read_only_raises _ 10 5 "a" "r" .none rfl rfl rfl rfl (by decide)

/-- The token set `set_permission` leaves for the role (`set.add`). -/
def permsAfterGrant (ps : List String) (perm : String) : List String :=
  if ps.contains perm then ps else ps ++ [perm]

/-- The state `set_permission` produces when the namespace is well-formed. -/
def grantResult (s : RegState) (ns role perm : String) : RegState :=
  { s with permissions := (aset ns
      (aset role
        (permsAfterGrant ((alookup role ((alookup ns s.permissions).getD [])).getD []) perm)
        ((alookup ns s.permissions).getD []))
      s.permissions) }

theorem set_permission_eq_ok (s : RegState) (ns role perm : String)
    (hval : validate_namespace ns = true) :
    set_permission s ns role perm = .ok (grantResult s ns role perm) := by
  simp [set_permission, grantResult, permsAfterGrant, hval]

/-- A freshly granted token is seen by `check_permission`. -/
theorem check_permission_grant (s : RegState) (P R perm : String)
    (hA : resolve_alias s P = P) :
    check_permission (grantResult s P R perm) P R perm = true := by
  simp only [resolve_alias] at hA
  simp only [check_permission, resolve_alias, grantResult, permsAfterGrant]
  simp only [hA, alookup_aset_self, Option.getD_some]
  split <;> simp_all

/-- C5: a role without `"write"` on P has `set` fail with the permission
error while no table is touched (the raise precedes every mutation, so the
state the caller keeps is unchanged); after `set_permission` grants
`"write"` to that role, the same `set` succeeds. -/
theorem set_denied_then_granted (s : RegState) (now now2 : Nat) (P R : String)
    (v : PyObj) (desc : String) (ttl : Option Nat) (nss : List (String × PyObj))
    (hA : resolve_alias s P = P)
    (hval : validate_namespace P = true)
    (hnoperm : check_permission s P R "write" = false)
    (hwalk : walkSet s.namespaces (splitDot P).dropLast ((splitDot P).getLastD "") v
      = .ok nss) :
    set s now P v desc R ttl = .error (.permissionError R P "write") ∧
    set_permission s P R "write" = .ok (grantResult s P R "write") ∧
    check_permission (grantResult s P R "write") P R "write" = true ∧
    set (grantResult s P R "write") now2 P v desc R ttl
      = .ok (setResult (grantResult s P R "write") now2 P v desc ttl nss) := by
  refine ⟨?_, set_permission_eq_ok s P R "write" hval,
    check_permission_grant s P R "write" hA, ?_⟩
  · have h := set_denied s now P v desc R ttl (by rwa [hA]) (by rwa [hA])
    rwa [hA] at h
  · exact set_eq_ok (grantResult s P R "write") now2 P v desc R ttl nss hA hval
      (check_permission_grant s P R "write" hA) hwalk

/-- Closed instance of `set_denied_then_granted` at an initially empty
registry: `"r"` cannot write `"a"` until granted. -/
def c5s0 : RegState := ⟨[], [], [], [], [], []⟩

theorem set_denied_then_granted_witness :
    set c5s0 3 "a" (.val 7) "" "r" Option.none
      = .error (.permissionError "r" "a" "write") ∧
    set_permission c5s0 "a" "r" "write" = .ok (grantResult c5s0 "a" "r" "write") ∧
    check_permission (grantResult c5s0 "a" "r" "write") "a" "r" "write" = true ∧
    set (grantResult c5s0 "a" "r" "write") 4 "a" (.val 7) "" "r" Option.none
      = .ok (setResult (grantResult c5s0 "a" "r" "write") 4 "a" (.val 7) ""
          Option.none [("a", .val 7)]) :=
  set_denied_then_granted c5s0 3 4 "a" "r" (.val 7) ""
    Option.none [("a", .val 7)] rfl rfl rfl rfl

/-- C3, the failing input: the source rebuilds the whole metadata record on
every `set`, so `created_at` is overwritten with the newer clock value —
after a first registration at time 1 and a re-registration at time 5, the
recorded `created_at` is 5, not the 1 of the first registration.  (The
first conjunct shows the first write did record 1.) -/
theorem set_resets_created_at :
    ((set ⟨[], [], [], [], [("a", [("admin", ["write"])])], []⟩
        1 "a" (.val 1) "" "admin" Option.none).map fun s1 =>
      (alookup "a" s1.metadata).map Metadata.created_at) = .ok (some 1) ∧
    ((set ⟨[], [], [], [], [("a", [("admin", ["write"])])], []⟩
        1 "a" (.val 1) "" "admin" Option.none).bind fun s1 =>
      (set s1 5 "a" (.val 2) "" "admin" Option.none).map fun s2 =>
        (alookup "a" s2.metadata).map Metadata.created_at) = .ok (some 5) ∧
    (5 : Nat) ≠ 1 :=
  ⟨rfl, rfl, by decide⟩

/-- Companion definition following the spec's words for the read walk of
`get`: "walks the mapping, returning the stored value or `default` on any
missing segment" — a total function with no raising branch. -/
def specGet : PyObj → List String → PyObj → PyObj
  | ref, [], _ => ref
  | ref, k :: rest, dflt =>
    match ref.asDict with
    | some d =>
      match alookup k d with
      | some v => specGet v rest dflt
      | Option.none => dflt
    | Option.none => dflt

/-- The walk of `get` stays within mappings until the terminal or until a
missing segment: the condition under which the Python walk cannot raise
`TypeError`. -/
def cleanWalk : PyObj → List String → Bool
  | _, [] => true
  | ref, k :: rest =>
    match ref.asDict with
    | Option.none => false
    | some d =>
      match alookup k d with
      | Option.none => true
      | some v => cleanWalk v rest

/-- On a clean walk the source's `get` walk coincides with the spec's. -/
theorem walkGet_of_cleanWalk (ref : PyObj) (keys : List String) (dflt : PyObj)
    (h : cleanWalk ref keys = true) :
    walkGet ref keys dflt = .ok (specGet ref keys dflt) := by
  induction keys generalizing ref with
  | nil => simp [walkGet, specGet]
  | cons k rest ih =>
    simp only [cleanWalk] at h
    split at h
    · simp at h
    · rename_i d hd
      split at h
      · rename_i hk
        simp [walkGet, specGet, hd, hk]
      · rename_i v hk
        simp [walkGet, specGet, hd, hk, ih v h]

/-- `delete` with the guards passed and the parent chain present: the leaf
and the path's metadata, history and expiration are all removed. -/
theorem delete_eq_ok (s : RegState) (ns role : String)
    (nss : List (String × PyObj))
    (hA : resolve_alias s ns = ns)
    (hperm : check_permission s ns role "write" = true)
    (hdel : delPath s.namespaces (splitDot ns).dropLast ((splitDot ns).getLastD "")
      = .ok (some nss)) :
    delete s ns role = .ok { s with
      namespaces := nss
      metadata := apop ns s.metadata
      versions := apop ns s.versions
      expirations := apop ns s.expirations } := by
  simp only [List.getLastD_eq_getLast?] at hdel
  simp [delete, hA, hperm, hdel]

/-- C4 counterexample: namespace `"x"` is expired at time 9 and role
`"reader"` holds `"read"` but not `"write"`; the claim says `get` deletes
the entry and returns the default `val 99`, but the code raises
`PermissionError` out of the internal `delete` and returns nothing. -/
def c4state : RegState :=
  ⟨[("x", .val 2)], [("x", ⟨0, 0, ""⟩)], [], [("x", [(0, .val 2)])],
    [("x", [("reader", ["read"])])], [("x", 3)]⟩

theorem get_expired_returns_default_counterexample :
    get c4state 9 "x" (.val 99) "reader"
      = .error (.permissionError "reader" "x" "write") ∧
    ∀ r, get c4state 9 "x" (.val 99) "reader" ≠ .ok r :=
  ⟨rfl, fun _ h => nomatch h⟩

/-- C4 (amended): for a role holding `"read"`: when an expiration exists and
has passed, `get` reclaims the entry through `delete(P, role)` — which
additionally demands `"write"` and, with it, cascades the leaf, metadata,
history and expiration — and returns the default; when no expiration
applies, `get` walks the nested mapping and returns the stored value, or the
default on a missing segment, raising nothing as long as the walk crosses
only mappings. -/
theorem get_spec (s : RegState) (now : Nat) (P R : String) (dflt : PyObj)
    (hA : resolve_alias s P = P)
    (hread : check_permission s P R "read" = true) :
    (∀ e nss, alookup P s.expirations = some e → now > e →
      check_permission s P R "write" = true →
      delPath s.namespaces (splitDot P).dropLast ((splitDot P).getLastD "")
        = .ok (some nss) →
      get s now P dflt R = .ok (dflt, { s with
        namespaces := nss
        metadata := apop P s.metadata
        versions := apop P s.versions
        expirations := apop P s.expirations })) ∧
    ((∀ e, alookup P s.expirations = some e → ¬ now > e) →
      cleanWalk (.dict s.namespaces) (splitDot P) = true →
      get s now P dflt R = .ok (specGet (.dict s.namespaces) (splitDot P) dflt, s)) := by
  constructor
  · intro e nss hexp hpass hwrite hdel
    have hdel' := delete_eq_ok s P R nss hA hwrite hdel
    simp [get, hA, hread, hexp, hpass, hdel']
  · intro hlive hclean
    have hwalk := walkGet_of_cleanWalk (.dict s.namespaces) (splitDot P) dflt hclean
    cases hexp : alookup P s.expirations with
    | none => simp [get, hA, hread, hexp, hwalk]
    | some e => simp [get, hA, hread, hexp, hlive e hexp, hwalk]

/-- Closed instances of both branches of `get_spec`: an expired entry read
by a role with read+write is reclaimed and the default comes back; a live
entry is simply returned. -/
def c4rw : RegState :=
  ⟨[("x", .val 2)], [("x", ⟨0, 0, ""⟩)], [], [("x", [(0, .val 2)])],
    [("x", [("rw", ["read", "write"])])], [("x", 3)]⟩

theorem get_spec_witness :
    get c4rw 9 "x" (.val 99) "rw"
      = .ok (.val 99, ⟨[], [], [], [], [("x", [("rw", ["read", "write"])])], []⟩) ∧
    get c4rw 2 "x" (.val 99) "rw"
      = .ok (.val 2, ⟨[("x", .val 2)], [("x", ⟨0, 0, ""⟩)], [],
          [("x", [(0, .val 2)])], [("x", [("rw", ["read", "write"])])], [("x", 3)]⟩) := by
  constructor
  · exact (get_spec c4rw 9 "x" "rw" (.val 99) rfl rfl).1 3 [] rfl (by decide) rfl rfl
  · exact (get_spec c4rw 2 "x" "rw" (.val 99) rfl rfl).2 (fun e he => by
      cases he; decide) rfl

/-- C1 counterexample: with an empty permission table every role has "no
recorded permission entry", yet `get_versions` and `list_keys` hand back the
stored data instead of denying — neither operation consults permissions (or
even takes a role). -/
theorem unguarded_reads_counterexample :
    get_versions ⟨[("a", .val 5)], [], [], [("a", [(1, .val 5)])], [], []⟩ "a"
      = [(1, PyObj.val 5)] ∧
    list_keys ⟨[("a", .val 5)], [], [], [("a", [(1, .val 5)])], [], []⟩ ""
      = .ok ["a"] :=
  ⟨rfl, rfl⟩

/-- The only errors of the `get` walk are `TypeError`s: the walk never
raises the format `ValueError`. -/
theorem walkGet_err_typeError (keys : List String) :
    ∀ (ref dflt : PyObj) (e : PyErr),
    walkGet ref keys dflt = .error e → e = .typeError := by
  induction keys with
  | nil =>
    intro ref dflt e h
    simp [walkGet] at h
  | cons k rest ih =>
    intro ref dflt e h
    simp only [walkGet] at h
    split at h
    · simp only [Except.error.injEq] at h
      exact h.symm
    · split at h
      · simp at h
      · exact ih _ dflt e h

/-- The only errors of the `delete` walk are `TypeError`/`AttributeError`s. -/
theorem delPath_err_no_valueError (mids : List String) :
    ∀ (d : List (String × PyObj)) (last0 : String) (e : PyErr) (msg : String),
    delPath d mids last0 = .error e → e ≠ .valueError msg := by
  induction mids with
  | nil =>
    intro d last0 e msg h
    simp [delPath] at h
  | cons k rest ih =>
    intro d last0 e msg h
    simp only [delPath] at h
    split at h
    · simp at h
    · split at h
      · split at h
        · rename_i hrec
          simp only [Except.error.injEq] at h
          subst h
          exact ih _ last0 _ msg hrec
        · simp at h
        · simp at h
      · split at h <;>
          (simp only [Except.error.injEq] at h; subst h; simp)

/-- `delete` never raises `ValueError`: it performs no format validation. -/
theorem delete_no_valueError (s : RegState) (ns0 role msg : String) :
    delete s ns0 role ≠ .error (.valueError msg) := by
  intro h
  simp only [delete] at h
  split at h
  · simp at h
  · split at h
    · rename_i e hdp
      simp only [Except.error.injEq] at h
      subst h
      exact delPath_err_no_valueError _ _ _ _ msg hdp rfl
    · simp at h
    · simp at h

/-- `get` never raises `ValueError`: it performs no format validation
(every raising path is a permission check, a `TypeError` of the walk, or an
error of the internal `delete`). -/
theorem get_no_valueError (s : RegState) (now : Nat) (ns0 : String)
    (dflt : PyObj) (role msg : String) :
    get s now ns0 dflt role ≠ .error (.valueError msg) := by
  intro h
  simp only [get] at h
  split at h
  · simp at h
  · split at h
    · split at h
      · split at h
        · rename_i e hdel
          simp only [Except.error.injEq] at h
          subst h
          exact delete_no_valueError s _ role msg hdel
        · simp at h
      · split at h
        · rename_i e hwg
          simp only [Except.error.injEq] at h
          subst h
          exact absurd (walkGet_err_typeError _ _ _ _ hwg) (by simp)
        · simp at h
    · split at h
      · rename_i e hwg
        simp only [Except.error.injEq] at h
        subst h
        exact absurd (walkGet_err_typeError _ _ _ _ hwg) (by simp)
      · simp at h

/-- C1 (amended): only `set` runs the full alias→format→permission pipeline:
it rejects an invalid alias-resolved path with `ValueError` and fails closed
on a role with no recorded permission entry.  `get` and `delete` resolve the
alias and fail closed on their permission check, but perform no format
validation — no input makes them raise the format `ValueError`.  `rollback`
checks no caller permission; its nested `set` demands `"write"` for the
fixed role `"admin"`.  `get_versions`, `list_keys` and `search` consult no
permissions at all (their results ignore the permission table), and `search`
resolves no aliases either.  `set_alias` and `set_permission` validate path
formats, raising `ValueError` on invalid input, but check no permission:
on valid input they succeed whatever the permission table holds. -/
theorem guard_pipeline (s : RegState) (now ts : Nat) (P R : String) (v : PyObj)
    (desc : String) (ttl : Option Nat) (dflt : PyObj) (tv : Nat × PyObj)
    (hA : resolve_alias s P = P)
    (hval : validate_namespace P = true)
    (hrole : alookup R ((alookup P s.permissions).getD []) = Option.none)
    (hadmin : alookup "admin" ((alookup P s.permissions).getD []) = Option.none)
    (hfind : ((alookup P s.versions).getD []).reverse.find? (fun p => p.1 ≤ ts)
      = some tv) :
    set s now P v desc R ttl = .error (.permissionError R P "write") ∧
    get s now P dflt R = .error (.permissionError R P "read") ∧
    delete s P R = .error (.permissionError R P "write") ∧
    rollback s now P ts = .error (.permissionError "admin" P "write") ∧
    (∀ (s' : RegState) (now' : Nat) (Q : String) (v' : PyObj) (d' r' : String)
      (ttl' : Option Nat), validate_namespace (resolve_alias s' Q) = false →
      set s' now' Q v' d' r' ttl' = .error (.valueError (resolve_alias s' Q))) ∧
    (∀ (s' : RegState) (a b : String),
      validate_namespace a = false ∨ validate_namespace b = false →
      set_alias s' a b = .error (.valueError "Invalid alias or namespace format.")) ∧
    (∀ (s' : RegState) (ns' r' p' : String), validate_namespace ns' = false →
      set_permission s' ns' r' p' = .error (.valueError ns')) ∧
    (∀ (s' : RegState) (now' : Nat) (Q : String) (dflt' : PyObj) (r' msg : String),
      get s' now' Q dflt' r' ≠ .error (.valueError msg)) ∧
    (∀ (s' : RegState) (Q r' msg : String),
      delete s' Q r' ≠ .error (.valueError msg)) ∧
    (∀ (s' : RegState) (ns' : String),
      get_versions { s' with permissions := [] } ns' = get_versions s' ns') ∧
    (∀ (s' : RegState) (ns' : String),
      list_keys { s' with permissions := [] } ns' = list_keys s' ns') ∧
    (∀ (s' : RegState) (pat : String),
      search { s' with permissions := [], aliases := [] } pat = search s' pat) ∧
    (∀ (s' : RegState) (a b : String),
      validate_namespace a = true → validate_namespace b = true →
      set_alias { s' with permissions := [] } a b
        = .ok { s' with permissions := [], aliases := aset a b s'.aliases }) ∧
    (∀ (s' : RegState) (ns' r' p' : String), validate_namespace ns' = true →
      set_permission s' ns' r' p' = .ok (grantResult s' ns' r' p')) := by
  have hnoR : ∀ p, check_permission s P R p = false := fun p =>
    check_permission_no_role_entry s P R p hA hrole
  have hnoA : check_permission s P "admin" "write" = false :=
    check_permission_no_role_entry s P "admin" "write" hA hadmin
  refine ⟨?_, ?_, ?_, ?_, ?_, ?_, ?_,
    fun s' now' Q dflt' r' msg => get_no_valueError s' now' Q dflt' r' msg,
    fun s' Q r' msg => delete_no_valueError s' Q r' msg,
    fun s' ns' => rfl, fun s' ns' => rfl, fun s' pat => rfl, ?_,
    fun s' ns' r' p' h => set_permission_eq_ok s' ns' r' p' h⟩
  · have h := set_denied s now P v desc R ttl (by rwa [hA]) (by rw [hA]; exact hnoR _)
    rwa [hA] at h
  · have h := get_denied s now P dflt R (by rw [hA]; exact hnoR _)
    rwa [hA] at h
  · have h := delete_denied s P R (by rw [hA]; exact hnoR _)
    rwa [hA] at h
  · have hset := set_denied s now P tv.2 "" "admin" Option.none
      (by rwa [hA]) (by rwa [hA])
    rw [hA] at hset
    simp [rollback, hA, hfind, hset]
  · intro s' now' Q v' d' r' ttl' hbad
    simp [set, hbad]
  · intro s' a b hbad
    cases hbad with
    | inl ha => simp [set_alias, ha]
    | inr hb => simp [set_alias, hb]
  · intro s' ns' r' p' hbad
    simp [set_permission, hbad]
  · intro s' a b ha hb
    simp [set_alias, ha, hb]

def c1state : RegState := ⟨[("a", .val 9)], [], [], [("a", [(1, .val 9)])], [], []⟩

/-- Closed instances of `guard_pipeline`: namespace `"a"` has one version
and an empty permission table, so role `"r"` (and `rollback`'s internal
`"admin"`) are denied everywhere a check exists, while the malformed path
`"b@d"` is rejected with `ValueError` by `set`, `set_alias` and
`set_permission` — the operations that do validate. -/
theorem guard_pipeline_witness :
    set c1state 7 "a" (.val 0) "" "r" Option.none
      = .error (.permissionError "r" "a" "write") ∧
    get c1state 7 "a" .none "r"
      = .error (.permissionError "r" "a" "read") ∧
    delete c1state "a" "r"
      = .error (.permissionError "r" "a" "write") ∧
    rollback c1state 7 "a" 2
      = .error (.permissionError "admin" "a" "write") ∧
    set c1state 7 "b@d" (.val 0) "" "r" Option.none
      = .error (.valueError "b@d") ∧
    set_alias c1state "b@d" "a"
      = .error (.valueError "Invalid alias or namespace format.") ∧
    set_permission c1state "b@d" "r" "write"
      = .error (.valueError "b@d") := by
  have h := guard_pipeline c1state 7 2 "a" "r" (.val 0) "" Option.none .none
    (1, .val 9) rfl rfl rfl rfl rfl
  obtain ⟨h1, h2, h3, h4, h5, h6, h7, _⟩ := h
  exact ⟨h1, h2, h3, h4,
    h5 c1state 7 "b@d" (.val 0) "" "r" Option.none rfl,
    h6 c1state "b@d" "a" (Or.inl rfl),
    h7 c1state "b@d" "r" "write" rfl⟩

/-- The last element of the filtered list is the first match of the reversed
scan — the shape of `rollback`'s `for ts, val in reversed(versions)`. -/
theorem find_reverse_eq_getLast (p : α → Bool) (l : List α) :
    l.reverse.find? p = (l.filter p).getLast? := by
  induction l using List.reverseRecOn with
  | nil => rfl
  | append_singleton l a ih =>
    rw [List.reverse_append, List.filter_append]
    cases hpa : p a
    · simp only [List.reverse_singleton, List.singleton_append]
      rw [List.find?_cons_of_neg _ (by simp [hpa]), ih]
      have hfa : List.filter p [a] = [] := by simp [List.filter_cons, hpa]
      rw [hfa, List.append_nil]
    · simp only [List.reverse_singleton, List.singleton_append]
      rw [List.find?_cons_of_pos _ hpa]
      have hfa : List.filter p [a] = [a] := by simp [List.filter_cons, hpa]
      rw [hfa, List.getLast?_concat]

/-- `N` sequential `set` calls of the same path (the claim's `set(P, Vi)`
sequence), each with its own clock value. -/
def setSeq (s : RegState) (P role : String) : List (Nat × PyObj) → Except PyErr RegState
  | [] => .ok s
  | (t, v) :: rest =>
    match set s t P v "" role Option.none with
    | .error e => .error e
    | .ok s1 => setSeq s1 P role rest

/-- Bookkeeping of a successful `set` sequence: aliases, permissions and
expirations survive untouched, the history of `P` grows by exactly the
written pairs, and (once something was written) the path stays writable. -/
theorem setSeq_ok_elim (P role : String) :
    ∀ (vals : List (Nat × PyObj)) (s s' : RegState),
    resolve_alias s P = P →
    setSeq s P role vals = .ok s' →
    s'.aliases = s.aliases ∧ s'.permissions = s.permissions ∧
    s'.expirations = s.expirations ∧
    (alookup P s'.versions).getD [] = (alookup P s.versions).getD [] ++ vals ∧
    (vals = [] → s' = s) ∧
    (vals ≠ [] → ∀ v', ∃ d',
      walkSet s'.namespaces (splitDot P).dropLast ((splitDot P).getLastD "") v'
        = .ok d') := by
  intro vals
  induction vals with
  | nil =>
    intro s s' hA h
    simp only [setSeq, Except.ok.injEq] at h
    subst h
    simp
  | cons tv rest ih =>
    intro s s' hA h
    obtain ⟨t, v⟩ := tv
    simp only [setSeq] at h
    split at h
    · simp at h
    · rename_i s1 hset
      obtain ⟨nss, hval, hperm, hwalk, hs1⟩ :=
        set_ok_elim s s1 t P v "" role Option.none hset
      rw [hA] at hwalk hs1
      subst hs1
      have hA1 : resolve_alias (setResult s t P v "" Option.none nss) P = P := hA
      obtain ⟨ha, hp, he, hv, hnil, hw⟩ := ih _ s' hA1 h
      refine ⟨by rw [ha]; rfl, by rw [hp]; rfl, by rw [he]; rfl, ?_, by simp, ?_⟩
      · rw [hv]
        simp [setResult, alookup_aset_self]
      · intro _ v'
        cases rest with
        | nil =>
          rw [hnil rfl]
          exact walkSet_ok_again _ s.namespaces nss _ v v' hwalk
        | cons b bs =>
          exact hw (by simp) v'

/-- C2: after `N` sequential `set(P, Vi)` calls on a fresh path, the history
holds exactly the `N` written pairs, in the (hypothesised-monotone) clock
order; `rollback(P, ts)` re-applies the latest version with timestamp `≤ ts`
through `set`, appending an `(N+1)`-th entry with that historical value and
leaving the earlier entries untouched. -/
theorem versions_append_only (s0 sN : RegState) (P role : String)
    (vals : List (Nat × PyObj)) (ts now : Nat)
    (hA : resolve_alias s0 P = P)
    (hval : validate_namespace P = true)
    (hv0 : (alookup P s0.versions).getD [] = [])
    (hmono : List.Chain' (fun a b => a.1 ≤ b.1) vals)
    (hseq : setSeq s0 P role vals = .ok sN) :
    get_versions sN P = vals ∧
    List.Chain' (· ≤ ·) ((get_versions sN P).map Prod.fst) ∧
    ∀ tj vj, (vals.filter (fun p => p.1 ≤ ts)).getLast? = some (tj, vj) →
      check_permission s0 P "admin" "write" = true →
      ∃ sR, rollback sN now P ts = .ok sR ∧
        get_versions sR P = vals ++ [(now, vj)] := by
  obtain ⟨ha, hp, he, hv, hnil, hw⟩ := setSeq_ok_elim P role vals s0 sN hA hseq
  rw [hv0] at hv
  simp only [List.nil_append] at hv
  have hAN : resolve_alias sN P = P := by
    simp only [resolve_alias] at hA ⊢
    rw [ha]
    exact hA
  have hgv : get_versions sN P = vals := by
    simp only [get_versions, hAN]
    exact hv
  refine ⟨hgv, ?_, ?_⟩
  · rw [hgv, List.chain'_map]
    exact hmono
  · intro tj vj hlast hadmin
    have hfind : ((alookup P sN.versions).getD []).reverse.find? (fun p => p.1 ≤ ts)
        = some (tj, vj) := by
      rw [hv, find_reverse_eq_getLast]
      exact hlast
    have hvalsne : vals ≠ [] := by
      intro hh
      rw [hh] at hlast
      simp at hlast
    have hpermN : check_permission sN P "admin" "write" = true := by
      simp only [check_permission, resolve_alias] at hadmin ⊢
      rw [ha, hp]
      exact hadmin
    obtain ⟨nss, hwalkN⟩ := hw hvalsne vj
    have hset := set_eq_ok sN now P vj "" "admin" Option.none nss hAN hval hpermN hwalkN
    refine ⟨setResult sN now P vj "" Option.none nss, ?_, ?_⟩
    · simp only [rollback, hAN, hfind]
      exact hset
    · have hASR : resolve_alias (setResult sN now P vj "" Option.none nss) P = P := hAN
      simp only [get_versions, hASR]
      simp only [setResult, alookup_aset_self, Option.getD_some]
      rw [hv]

def c2s0 : RegState :=
  ⟨[], [], [], [], [("a", [("w", ["write"]), ("admin", ["write"])])], []⟩

def c2sN : RegState :=
  ⟨[("a", .val 20)], [("a", ⟨2, 2, ""⟩)], [], [("a", [(1, .val 10), (2, .val 20)])],
    [("a", [("w", ["write"]), ("admin", ["write"])])], []⟩

def c2sR : RegState :=
  ⟨[("a", .val 10)], [("a", ⟨5, 5, ""⟩)], [],
    [("a", [(1, .val 10), (2, .val 20), (5, .val 10)])],
    [("a", [("w", ["write"]), ("admin", ["write"])])], []⟩

/-- Closed instance of `versions_append_only`: two writes at times 1 and 2,
then a rollback to timestamp 1 at time 5 appends `(5, val 10)`. -/
theorem versions_append_only_witness :
    get_versions c2sN "a" = [(1, .val 10), (2, .val 20)] ∧
    List.Chain' (· ≤ ·) ((get_versions c2sN "a").map Prod.fst) ∧
    rollback c2sN 5 "a" 1 = .ok c2sR ∧
    get_versions c2sR "a" = [(1, .val 10), (2, .val 20), (5, .val 10)] := by
  have h := versions_append_only c2s0 c2sN "a" "w" [(1, .val 10), (2, .val 20)]
    1 5 rfl rfl rfl (by simp [List.chain'_cons]) rfl
  exact ⟨h.1, h.2.1, rfl, rfl⟩

end PyForged.NamespaceManager

/-! ## Tree registry lemmas and claims -/

/-- Harness helper: whether an `Except` computation returned normally. -/
def isOkE : Except ε α → Bool
  | .ok _ => true
  | .error _ => false

namespace Forged

theorem NamespaceNode.symbol_withSymbol (n : NamespaceNode) (sy : Option Symbol) :
    (n.withSymbol sy).symbol = sy := by
  cases n
  rfl

theorem NamespaceNode.children_withSymbol (n : NamespaceNode) (sy : Option Symbol) :
    (n.withSymbol sy).children = n.children := by
  cases n
  rfl

theorem NamespaceNode.symbol_set_child (n : NamespaceNode) (k : String)
    (c : NamespaceNode) : (n.set_child k c).symbol = n.symbol := by
  cases n
  rfl

theorem NamespaceNode.get_child_set_child_self (n : NamespaceNode) (k : String)
    (c : NamespaceNode) : (n.set_child k c).get_child k = some c := by
  cases n
  simp [NamespaceNode.set_child, NamespaceNode.get_child, NamespaceNode.children,
    alookup_aset_self]

theorem NamespaceNode.get_child_set_child_ne (n : NamespaceNode) (k k' : String)
    (c : NamespaceNode) (h : k' ≠ k) :
    (n.set_child k c).get_child k' = n.get_child k' := by
  cases n
  simp [NamespaceNode.set_child, NamespaceNode.get_child, NamespaceNode.children,
    alookup_aset_ne _ _ _ _ h]

/-- `str.split` never yields an empty list, so neither does `split_path`. -/
theorem splitDotAux_ne_nil (cs : List Char) : splitDotAux cs ≠ [] := by
  induction cs with
  | nil => simp [splitDotAux]
  | cons c cs ih =>
    simp only [splitDotAux]
    split
    · simp
    · split <;> simp

theorem split_path_ne_nil (P : String) : split_path P ≠ [] :=
  splitDotAux_ne_nil P.data

theorem dropLast_append_getLastD (l : List α) (d : α) (h : l ≠ []) :
    l.dropLast ++ [l.getLastD d] = l := by
  rw [List.getLastD_eq_getLast?, List.getLast?_eq_getLast l h, Option.getD_some,
    List.dropLast_append_getLast h]

/-- A successful `register` walk installs the (wrapped) value at the walked
path. -/
theorem registerWalk_find (value : RegValue) (r : Resolver) (path final : String) :
    ∀ (mids : List String) (node node' : NamespaceNode) (r' : Resolver),
    registerWalk node mids final value r path = .ok (node', r') →
    ∃ ch, findNodeWalk node' (mids ++ [final]) = some ch ∧
      ch.symbol = some value.toSymbol := by
  intro mids
  induction mids with
  | nil =>
    intro node node' r' h
    simp only [registerWalk] at h
    split at h
    · rename_i child hchild
      split at h
      · split at h
        · simp at h
        · rename_i r2 hrc
          simp only [Except.ok.injEq, Prod.mk.injEq] at h
          refine ⟨child.withSymbol (some value.toSymbol), ?_, ?_⟩
          · rw [← h.1]
            simp [findNodeWalk, NamespaceNode.get_child_set_child_self]
          · exact NamespaceNode.symbol_withSymbol child _
      · simp only [Except.ok.injEq, Prod.mk.injEq] at h
        refine ⟨child.withSymbol (some value.toSymbol), ?_, ?_⟩
        · rw [← h.1]
          simp [findNodeWalk, NamespaceNode.get_child_set_child_self]
        · exact NamespaceNode.symbol_withSymbol child _
    · rename_i hchild
      simp only [Except.ok.injEq, Prod.mk.injEq] at h
      refine ⟨NamespaceNode.mk final (some value.toSymbol) [], ?_, rfl⟩
      rw [← h.1]
      simp [findNodeWalk, NamespaceNode.get_child_set_child_self]
  | cons k rest ih =>
    intro node node' r' h
    simp only [registerWalk] at h
    split at h
    · simp at h
    · rename_i child' r2 hrw
      simp only [Except.ok.injEq, Prod.mk.injEq] at h
      obtain ⟨ch, hfind, hsym⟩ := ih _ child' r2 hrw
      refine ⟨ch, ?_, hsym⟩
      rw [← h.1]
      simp [findNodeWalk, NamespaceNode.get_child_set_child_self, hfind]

/-- C6: on the tree registry, a successful `register(P, V)` of a raw value
followed by `resolve(P)` returns V (the terminal node holds the freshly
wrapped Symbol, so no lazy loading interferes). -/
theorem register_resolve_roundtrip (n n' : Namespace) (P : String) (v : PyObj)
    (_hval : PyForged.NamespaceManager.validate_namespace P = true)
    (hreg : n.register P (.raw v) = .ok n') :
    n'.resolve P = .ok (v, n') := by
  simp only [Namespace.register] at hreg
  split at hreg
  · simp at hreg
  · rename_i hP
    split at hreg
    · simp at hreg
    · rename_i root' r' hrw
      simp only [Except.ok.injEq] at hreg
      obtain ⟨ch, hfind, hsym⟩ :=
        registerWalk_find (.raw v) n.resolver P ((split_path P).getLastD "")
          (split_path P).dropLast n.root root' r' hrw
      rw [dropLast_append_getLastD (split_path P) "" (split_path_ne_nil P)] at hfind
      have hroot : n'.root = root' := by rw [← hreg]
      simp [Namespace.resolve, hroot, hfind, hsym, RegValue.toSymbol]

def c6n0 : Namespace := ⟨"root", .mk "root" Option.none [], ⟨false, [], []⟩⟩

def c6n1 : Namespace :=
  ⟨"root", .mk "root" Option.none
    [("a", .mk "a" Option.none
      [("b", .mk "b" (some ⟨.val 7, Option.none, []⟩) [])])], ⟨false, [], []⟩⟩

/-- Closed instance of the register/resolve round trip at path `"a.b"`. -/
theorem register_resolve_roundtrip_witness :
    c6n1.resolve "a.b" = .ok (.val 7, c6n1) :=
  register_resolve_roundtrip c6n0 c6n1 "a.b" (.val 7) rfl rfl


/-- `register` over an occupied terminal: with a strict policy the walk
aborts with `ConflictDetected` before any mutation; with a lax policy the
conflict is recorded exactly once (one appended entry) and only then the new
Symbol installed. -/
theorem registerWalk_occupied (value : RegValue) (r : Resolver) (path final : String) :
    ∀ (mids : List String) (node child : NamespaceNode),
    findNodeWalk node (mids ++ [final]) = some child →
    child.symbol.isSome = true →
    (r.strict = true →
      registerWalk node mids final value r path = .error (.conflictDetected path)) ∧
    (r.strict = false → ∃ node',
      registerWalk node mids final value r path
        = .ok (node', { r with conflicts := r.conflicts ++ [path] }) ∧
      findNodeWalk node' (mids ++ [final])
        = some (child.withSymbol (some value.toSymbol))) := by
  intro mids
  induction mids with
  | nil =>
    intro node child hfind hsym
    simp only [List.nil_append, findNodeWalk] at hfind
    split at hfind
    · simp at hfind
    · rename_i c hc
      simp only [findNodeWalk, Option.some.injEq] at hfind
      subst hfind
      constructor
      · intro hs
        simp [registerWalk, hc, hsym, Resolver.handle_conflict, hs]
      · intro hs
        refine ⟨node.set_child final (c.withSymbol (some value.toSymbol)), ?_, ?_⟩
        · simp [registerWalk, hc, hsym, Resolver.handle_conflict, hs]
        · simp [findNodeWalk, NamespaceNode.get_child_set_child_self]
  | cons k rest ih =>
    intro node child hfind hsym
    simp only [List.cons_append, findNodeWalk] at hfind
    split at hfind
    · simp at hfind
    · rename_i c hc
      obtain ⟨hstrict, hlax⟩ := ih c child hfind hsym
      constructor
      · intro hs
        simp [registerWalk, hc, hstrict hs]
      · intro hs
        obtain ⟨node1, hrw, hfind1⟩ := hlax hs
        refine ⟨node.set_child k node1, ?_, ?_⟩
        · simp [registerWalk, hc, hrw]
        · simp [findNodeWalk, NamespaceNode.get_child_set_child_self, hfind1]

/-- C7: registering over an occupied path invokes the conflict handler
exactly once and before any mutation: a raise-and-abort policy fails the
whole registration with `ConflictDetected` (nothing mutated, the error
carries no new state), and a record-and-overwrite policy appends exactly one
conflict record after which — and only after which — the new value becomes
visible via `resolve`. -/
theorem conflict_handled_before_visibility (n : Namespace) (P : String)
    (v2 : RegValue) (child : NamespaceNode)
    (hP : P ≠ "")
    (hfind : findNodeWalk n.root (split_path P) = some child)
    (hocc : child.symbol.isSome = true) :
    (n.resolver.strict = true →
      n.register P v2 = .error (.conflictDetected P)) ∧
    (n.resolver.strict = false →
      isOkE (n.register P v2) = true ∧
      ∀ n', n.register P v2 = .ok n' →
        n'.resolver.conflicts = n.resolver.conflicts ++ [P] ∧
        n'.resolve P = .ok (v2.toSymbol.value, n')) := by
  have hsplit := dropLast_append_getLastD (split_path P) "" (split_path_ne_nil P)
  rw [← hsplit] at hfind
  obtain ⟨hstrict, hlax⟩ := registerWalk_occupied v2 n.resolver P
    ((split_path P).getLastD "") (split_path P).dropLast n.root child hfind hocc
  simp only [List.getLastD_eq_getLast?] at hstrict hlax
  constructor
  · intro hs
    simp [Namespace.register, hP, hstrict hs]
  · intro hs
    obtain ⟨root', hrw, hfind'⟩ := hlax hs
    have hreg_ok :
        n.register P v2
          = .ok ⟨n.name, root', { n.resolver with conflicts := n.resolver.conflicts ++ [P] }⟩ := by
      simp [Namespace.register, hP, hrw]
    constructor
    · simp [isOkE, hreg_ok]
    · intro n' hn'
      rw [hreg_ok] at hn'
      simp only [Except.ok.injEq] at hn'
      subst hn'
      refine ⟨rfl, ?_⟩
      have hsplit2 : (split_path P).dropLast ++ [(split_path P).getLast?.getD ""]
          = split_path P := by
        rw [← List.getLastD_eq_getLast?]
        exact hsplit
      rw [hsplit2] at hfind'
      simp [Namespace.resolve, hfind', NamespaceNode.symbol_withSymbol]

def c7strict : Namespace :=
  ⟨"root", .mk "root" Option.none
    [("a", .mk "a" (some ⟨.val 1, Option.none, []⟩) [])], ⟨true, [], []⟩⟩

def c7lax : Namespace :=
  ⟨"root", .mk "root" Option.none
    [("a", .mk "a" (some ⟨.val 1, Option.none, []⟩) [])], ⟨false, [], []⟩⟩

def c7lax' : Namespace :=
  ⟨"root", .mk "root" Option.none
    [("a", .mk "a" (some ⟨.val 2, Option.none, []⟩) [])], ⟨false, ["a"], []⟩⟩

/-- Closed instance of C7: over the occupied path `"a"`, a strict resolver
aborts with `ConflictDetected`; a lax one records the one conflict and the
new value 2 resolves. -/
theorem conflict_handled_before_visibility_witness :
    c7strict.register "a" (.raw (.val 2)) = .error (.conflictDetected "a") ∧
    c7lax'.resolver.conflicts = c7lax.resolver.conflicts ++ ["a"] ∧
    c7lax'.resolve "a" = .ok (.val 2, c7lax') := by
  have h1 := conflict_handled_before_visibility c7strict "a" (.raw (.val 2))
    (.mk "a" (some ⟨.val 1, Option.none, []⟩) []) (by decide) rfl rfl
  have h2 := conflict_handled_before_visibility c7lax "a" (.raw (.val 2))
    (.mk "a" (some ⟨.val 1, Option.none, []⟩) []) (by decide) rfl rfl
  exact ⟨h1.1 rfl, ((h2.2 rfl).2 c7lax' rfl).1, ((h2.2 rfl).2 c7lax' rfl).2⟩


/-- C8: `resolve` raises `KeyError("Path not found: ...")` when any segment —
intermediate or terminal — is missing; on a structurally present terminal
without a Symbol it triggers a pending lazy loader, caching the produced
Symbol at the node, before returning; with no pending loader it returns
`None` without raising. -/
theorem resolve_spec (n : Namespace) (P : String) (node : NamespaceNode) :
    (findNodeWalk n.root (split_path P) = Option.none →
      n.resolve P = .error (.keyError P)) ∧
    (findNodeWalk n.root (split_path P) = some node → node.symbol = Option.none →
      ∀ v, alookup P n.resolver.lazyTable = some v →
      n.resolve P = .ok (v, { n with
        root := setSymbolAt n.root (split_path P) (some ⟨v, Option.none, []⟩) })) ∧
    (findNodeWalk n.root (split_path P) = some node → node.symbol = Option.none →
      alookup P n.resolver.lazyTable = Option.none →
      n.resolve P = .ok (.none, n)) := by
  refine ⟨?_, ?_, ?_⟩
  · intro h
    simp [Namespace.resolve, h]
  · intro h hsym v hlz
    simp [Namespace.resolve, h, hsym, Resolver.load_lazy, hlz]
  · intro h hsym hlz
    simp [Namespace.resolve, h, hsym, Resolver.load_lazy, hlz]

def c8n : Namespace :=
  ⟨"root", .mk "root" Option.none
    [("a", .mk "a" Option.none []), ("b", .mk "b" Option.none [])],
    ⟨false, [], [("a", .val 3)]⟩⟩

/-- Closed instances of the three clauses of `resolve_spec` on one tree:
missing terminal raises, a pending loader materializes and caches `val 3`,
and a bare empty node resolves to `None`. -/
theorem resolve_spec_witness :
    c8n.resolve "a.z" = .error (.keyError "a.z") ∧
    c8n.resolve "a" = .ok (.val 3, ⟨"root", .mk "root" Option.none
      [("a", .mk "a" (some ⟨.val 3, Option.none, []⟩) []), ("b", .mk "b" Option.none [])],
      ⟨false, [], [("a", .val 3)]⟩⟩) ∧
    c8n.resolve "b" = .ok (.none, c8n) :=
  ⟨(resolve_spec c8n "a.z" c8n.root).1 rfl,
   (resolve_spec c8n "a" (.mk "a" Option.none [])).2.1 rfl rfl (.val 3) rfl,
   (resolve_spec c8n "b" (.mk "b" Option.none [])).2.2 rfl rfl rfl⟩

theorem findNodeWalk_withSymbol (x : NamespaceNode) (o : Option Symbol)
    (qs : List String) (h : qs ≠ []) :
    findNodeWalk (x.withSymbol o) qs = findNodeWalk x qs := by
  cases qs with
  | nil => exact absurd rfl h
  | cons q qt =>
    cases x
    simp [findNodeWalk, NamespaceNode.get_child, NamespaceNode.withSymbol,
      NamespaceNode.children]

/-- A `clearWalk` whose parent chain exists returns normally. -/
theorem clearWalk_ok_of_find (path : String) :
    ∀ (mids : List String) (last0 : String) (node target : NamespaceNode),
    findNodeWalk node (mids ++ [last0]) = some target →
    ∃ node', clearWalk node mids last0 path = .ok node' := by
  intro mids
  induction mids with
  | nil =>
    intro last0 node target hfind
    simp only [List.nil_append, findNodeWalk] at hfind
    split at hfind
    · simp at hfind
    · rename_i c hc
      exact ⟨node.set_child last0 (c.withSymbol Option.none), by simp [clearWalk, hc]⟩
  | cons k rest ih =>
    intro last0 node target hfind
    simp only [List.cons_append, findNodeWalk] at hfind
    split at hfind
    · simp at hfind
    · rename_i c hc
      obtain ⟨c', hcw⟩ := ih last0 c target hfind
      exact ⟨node.set_child k c', by simp [clearWalk, hc, hcw]⟩

/-- A `clearWalk` with a missing intermediate raises `KeyError`. -/
theorem clearWalk_err_of_missing (path : String) :
    ∀ (mids : List String) (last0 : String) (node : NamespaceNode),
    findNodeWalk node mids = Option.none →
    clearWalk node mids last0 path = .error (.keyError path) := by
  intro mids
  induction mids with
  | nil =>
    intro last0 node h
    simp [findNodeWalk] at h
  | cons k rest ih =>
    intro last0 node h
    simp only [findNodeWalk] at h
    split at h
    · rename_i hc
      simp [clearWalk, hc]
    · rename_i c hc
      simp [clearWalk, hc, ih last0 c h]

/-- What `clearWalk` changes: the terminal's Symbol is cleared, and the
Symbol seen at every other path is untouched. -/
theorem clearWalk_spec (path : String) :
    ∀ (mids : List String) (last0 : String) (node node' target : NamespaceNode),
    findNodeWalk node (mids ++ [last0]) = some target →
    clearWalk node mids last0 path = .ok node' →
    findNodeWalk node' (mids ++ [last0]) = some (target.withSymbol Option.none) ∧
    (∀ qs, qs ≠ mids ++ [last0] →
      (findNodeWalk node' qs).map NamespaceNode.symbol
        = (findNodeWalk node qs).map NamespaceNode.symbol) := by
  intro mids
  induction mids with
  | nil =>
    intro last0 node node' target hfind hclr
    simp only [List.nil_append, findNodeWalk] at hfind
    split at hfind
    · simp at hfind
    · rename_i c hc
      simp only [findNodeWalk, Option.some.injEq] at hfind
      subst hfind
      simp only [clearWalk, hc, Except.ok.injEq] at hclr
      subst hclr
      constructor
      · simp [findNodeWalk, NamespaceNode.get_child_set_child_self]
      · intro qs hqs
        cases qs with
        | nil => simp [findNodeWalk, NamespaceNode.symbol_set_child]
        | cons q qt =>
          by_cases hq : q = last0
          · subst hq
            have hqt : qt ≠ [] := by
              intro hh
              subst hh
              exact hqs rfl
            simp [findNodeWalk, NamespaceNode.get_child_set_child_self, hc,
              findNodeWalk_withSymbol _ _ qt hqt]
          · simp [findNodeWalk, NamespaceNode.get_child_set_child_ne _ _ _ _ hq]
  | cons k rest ih =>
    intro last0 node node' target hfind hclr
    simp only [List.cons_append, findNodeWalk] at hfind
    split at hfind
    · simp at hfind
    · rename_i c hc
      simp only [clearWalk, hc] at hclr
      split at hclr
      · simp at hclr
      · rename_i c' hcw
        simp only [Except.ok.injEq] at hclr
        subst hclr
        obtain ⟨h1, h2⟩ := ih last0 c c' target hfind hcw
        constructor
        · simp [findNodeWalk, NamespaceNode.get_child_set_child_self, h1]
        · intro qs hqs
          cases qs with
          | nil => simp [findNodeWalk, NamespaceNode.symbol_set_child]
          | cons q qt =>
            by_cases hq : q = k
            · subst hq
              have hqt : qt ≠ rest ++ [last0] := by
                intro hh
                subst hh
                exact hqs rfl
              simp only [findNodeWalk, NamespaceNode.get_child_set_child_self, hc]
              exact h2 qt hqt
            · simp [findNodeWalk, NamespaceNode.get_child_set_child_ne _ _ _ _ hq]

/-- C9: `unregister` of a registered path returns normally and only clears
the terminal node's Symbol — the node and its subtree persist — so a later
`resolve` of the path yields `None` without raising (no loader pending), any
other path resolves to exactly what it did before, and the resolver state is
untouched; `unregister` of a path with a missing intermediate raises
`KeyError("Path not found: ...")`. -/
theorem unregister_clears_symbol_only (n : Namespace) (P : String)
    (target : NamespaceNode)
    (hlazy : n.resolver.lazyTable = [])
    (hfind : findNodeWalk n.root (split_path P) = some target) :
    isOkE (n.unregister P) = true ∧
    (∀ n', n.unregister P = .ok n' →
      findNodeWalk n'.root (split_path P) = some (target.withSymbol Option.none) ∧
      (target.withSymbol Option.none).children = target.children ∧
      n'.resolve P = .ok (.none, n') ∧
      (∀ Q, split_path Q ≠ split_path P →
        (n'.resolve Q).map Prod.fst = (n.resolve Q).map Prod.fst) ∧
      n'.resolver = n.resolver ∧ n'.name = n.name) ∧
    (∀ Q, findNodeWalk n.root (split_path Q).dropLast = Option.none →
      n.unregister Q = .error (.keyError Q)) := by
  have hsplit : (split_path P).dropLast ++ [(split_path P).getLast?.getD ""]
      = split_path P := by
    rw [← List.getLastD_eq_getLast?]
    exact dropLast_append_getLastD (split_path P) "" (split_path_ne_nil P)
  have hfind0 : findNodeWalk n.root
      ((split_path P).dropLast ++ [(split_path P).getLast?.getD ""]) = some target := by
    rw [hsplit]
    exact hfind
  obtain ⟨root0, hclr⟩ := clearWalk_ok_of_find P (split_path P).dropLast
    ((split_path P).getLast?.getD "") n.root target hfind0
  obtain ⟨h1, h2⟩ := clearWalk_spec P (split_path P).dropLast
    ((split_path P).getLast?.getD "") n.root root0 target hfind0 hclr
  rw [hsplit] at h1
  have hunreg : n.unregister P = .ok ⟨n.name, root0, n.resolver⟩ := by
    simp [Namespace.unregister, hclr]
  refine ⟨by simp [isOkE, hunreg], ?_, ?_⟩
  · intro n' hn'
    rw [hunreg] at hn'
    simp only [Except.ok.injEq] at hn'
    subst hn'
    refine ⟨h1, NamespaceNode.children_withSymbol target _, ?_, ?_, rfl, rfl⟩
    · simp [Namespace.resolve, h1, NamespaceNode.symbol_withSymbol,
        Resolver.load_lazy, hlazy, alookup]
    · intro Q hQ
      have hmap := h2 (split_path Q) (by rw [hsplit]; exact hQ)
      cases hq : findNodeWalk n.root (split_path Q) with
      | none =>
        rw [hq] at hmap
        have hq' : findNodeWalk root0 (split_path Q) = Option.none := by
          simpa using hmap
        simp [Namespace.resolve, hq, hq']
      | some nd =>
        rw [hq] at hmap
        cases hq' : findNodeWalk root0 (split_path Q) with
        | none =>
          rw [hq'] at hmap
          simp at hmap
        | some nd' =>
          rw [hq'] at hmap
          simp only [Option.map_some', Option.some.injEq] at hmap
          cases hsy : nd.symbol with
          | some sym =>
            simp [Namespace.resolve, hq, hq', hsy, hmap, Except.map]
          | none =>
            simp [Namespace.resolve, hq, hq', hsy, hmap,
              Resolver.load_lazy, hlazy, alookup, Except.map]
  · intro Q hQ
    simp [Namespace.unregister,
      clearWalk_err_of_missing Q (split_path Q).dropLast
        ((split_path Q).getLast?.getD "") n.root hQ]

def c9n : Namespace :=
  ⟨"root", .mk "root" Option.none
    [("a", .mk "a" Option.none
      [("b", .mk "b" (some ⟨.val 7, Option.none, []⟩)
        [("u", .mk "u" (some ⟨.val 5, Option.none, []⟩) [])]),
       ("c", .mk "c" (some ⟨.val 8, Option.none, []⟩) [])])], ⟨false, [], []⟩⟩

def c9n' : Namespace :=
  ⟨"root", .mk "root" Option.none
    [("a", .mk "a" Option.none
      [("b", .mk "b" Option.none
        [("u", .mk "u" (some ⟨.val 5, Option.none, []⟩) [])]),
       ("c", .mk "c" (some ⟨.val 8, Option.none, []⟩) [])])], ⟨false, [], []⟩⟩

/-- Closed instance of C9: clearing `"a.b"` keeps the subtree (`"a.b.u"`
still resolves), leaves the sibling `"a.c"` untouched, and a missing
intermediate raises. -/
theorem unregister_clears_symbol_only_witness :
    c9n.unregister "a.b" = .ok c9n' ∧
    c9n'.resolve "a.b" = .ok (.none, c9n') ∧
    (c9n'.resolve "a.c").map Prod.fst = (c9n.resolve "a.c").map Prod.fst ∧
    (c9n'.resolve "a.b.u").map Prod.fst = (c9n.resolve "a.b.u").map Prod.fst ∧
    c9n.unregister "zz.q" = .error (.keyError "zz.q") := by
  have h := unregister_clears_symbol_only c9n "a.b"
    (.mk "b" (some ⟨.val 7, Option.none, []⟩)
      [("u", .mk "u" (some ⟨.val 5, Option.none, []⟩) [])]) rfl rfl
  have hp := h.2.1 c9n' rfl
  exact ⟨rfl, hp.2.2.1, hp.2.2.2.1 "a.c" (by decide), hp.2.2.2.1 "a.b.u" (by decide),
    h.2.2 "zz.q" rfl⟩

end Forged
